import Mathlib

/-
  Verification of the ACTA SDK core against its design specification.

  The TypeScript sources are shallowly embedded: JavaScript values that the
  credential helpers manipulate become an inductive `Json` type (a serialized
  JSON string is represented by its parse tree, and a string that fails to
  parse by a dedicated constructor); stateful orchestration code becomes pure
  functions over explicit oracles for the backend responses and the external
  signer; thrown exceptions become `Except`.
-/

namespace Acta

/-! ## JavaScript string and list primitives -/

/-- Character-list model of JavaScript `String.startsWith` semantics:
`listLeadsWith p l` holds when `p` is an initial segment of `l`. -/
def listLeadsWith : List Char → List Char → Bool
  | [], _ => true
  | _ :: _, [] => false
  | a :: as, b :: bs => a == b && listLeadsWith as bs

/-- Model of JavaScript `String.prototype.startsWith`. -/
def jsStartsWith (s pre : String) : Bool :=
  listLeadsWith pre.data s.data

/-- `listContainsSeq p l` holds when `p` occurs contiguously inside `l`. -/
def listContainsSeq (pat : List Char) : List Char → Bool
  | [] => listLeadsWith pat []
  | c :: cs => listLeadsWith pat (c :: cs) || listContainsSeq pat cs

/-- Model of JavaScript `String.prototype.includes` (substring test),
used by the client constructor as `baseURL.includes("mainnet")`. -/
def jsIncludesSubstr (s pat : String) : Bool :=
  listContainsSeq pat.data s.data

/-- The common JavaScript whitespace characters recognized by
`String.prototype.trim`. -/
def isJsWhitespace (c : Char) : Bool :=
  c == ' ' || c == '\t' || c == '\n' || c == '\r'

/-- Model of JavaScript `String.prototype.trim`: strips leading and trailing
whitespace. -/
def jsTrim (s : String) : String :=
  String.mk (((s.data.dropWhile isJsWhitespace).reverse.dropWhile isJsWhitespace).reverse)

/-- JavaScript truthiness of an optional string (`undefined` and `""` are
falsy), as used by the `||` chains in the sources. -/
def jsTruthyStr : Option String → Bool
  | none => false
  | some s => !(s == "")

/-- JavaScript `a || b` on optional strings: `a` when truthy, else `b`. -/
def jsOrOpt (a b : Option String) : Option String :=
  if jsTruthyStr a then a else b

/-- JavaScript `a || b` where `a` is an optional string and `b` a string,
as in `args.contractId || cfg.actaContractId`. -/
def jsOrStr : Option String → String → String
  | none, b => b
  | some a, b => if a == "" then b else a

/-! ## JSON value model

JavaScript values handled by `ensureContextInVcData` are modelled by `Json`.
An object is an association list in property-insertion order (the order
`JSON.stringify` serializes and spread copies preserve). -/

inductive Json where
  | null
  | bool (b : Bool)
  | num (n : Int)
  | str (s : String)
  | arr (elems : List Json)
  | obj (fields : List (String × Json))

/-- JavaScript property read `o[k]` on an object: first matching key,
`none` for `undefined`. -/
def lookupField : List (String × Json) → String → Option Json
  | [], _ => none
  | (k, v) :: rest, key => if k == key then some v else lookupField rest key

/-- JavaScript property write `o[k] = v`: updates an existing key in place
(keeping its position) or appends a new key at the end. -/
def setField : List (String × Json) → String → Json → List (String × Json)
  | [], key, v => [(key, v)]
  | (k, w) :: rest, key, v =>
      if k == key then (k, v) :: rest else (k, w) :: setField rest key v

/-- JavaScript truthiness of a property-read result (`none` = `undefined`). -/
def jsTruthy : Option Json → Bool
  | none => false
  | some Json.null => false
  | some (Json.bool b) => b
  | some (Json.num n) => !(n == 0)
  | some (Json.str s) => !(s == "")
  | some (Json.arr _) => true
  | some (Json.obj _) => true

/-- Model of `Array.isArray(o[k])`. -/
def isJsonArray : Option Json → Bool
  | some (Json.arr _) => true
  | _ => false

/-- Elements of an array-valued property (only used under an
`Array.isArray` guard). -/
def arrayElems : Option Json → List Json
  | some (Json.arr xs) => xs
  | _ => []

/-- Model of `Array.prototype.includes` with a string argument: SameValueZero
(`===`-like) comparison, so only a string element with the same contents
matches; a non-string element never equals a string. -/
def jsArrayIncludesStr (xs : List Json) (url : String) : Bool :=
  xs.any (fun x => match x with
    | Json.str t => t == url
    | _ => false)

/-! ## credential-helpers.ts -/

/-- First required schema URI of `requiredContext`. -/
def reqUri1 : String := "https://www.w3.org/ns/credentials/v2"

/-- Second required schema URI of `requiredContext`. -/
def reqUri2 : String := "https://www.w3.org/ns/credentials/examples/v2"

/-- The `requiredContext` constant of `ensureContextInVcData`. -/
def requiredContext : List String := [reqUri1, reqUri2]

/-- `buildDidFromAddress` from credential-helpers.ts:
string interpolation did:pkh:blockchain:network:walletAddress. -/
def buildDidFromAddress (walletAddress network blockchain : String) : String :=
  "did:pkh:" ++ blockchain ++ ":" ++ network ++ ":" ++ walletAddress

/-- `normalizeDid` from credential-helpers.ts. The TypeScript default
argument `blockchain = "stellar"` is passed explicitly by callers here. -/
def normalizeDid (didOrAddress network blockchain : String) : String :=
  if jsStartsWith didOrAddress "did:" then didOrAddress
  else buildDidFromAddress didOrAddress network blockchain

/-- The `@context` branch of `ensureContextInVcData`, acting on the fields of
the object `data`:
if `!data["@context"] || !Array.isArray(data["@context"])` the field is
replaced wholesale with `requiredContext`; otherwise the required URIs not
already present (per `includes`) are appended. -/
def ensureContextData (data : List (String × Json)) : List (String × Json) :=
  let ctx := lookupField data "@context"
  if !jsTruthy ctx || !isJsonArray ctx then
    setField data "@context" (Json.arr (requiredContext.map Json.str))
  else
    let existingContext := arrayElems ctx
    let missingContext :=
      requiredContext.filter (fun url => !jsArrayIncludesStr existingContext url)
    if 0 < missingContext.length then
      setField data "@context"
        (Json.arr (existingContext ++ missingContext.map Json.str))
    else
      data

/-- `ensureContextInVcData` applied to the parsed (or copied) value `data`.
The returned `Json` stands for the serialized string `JSON.stringify(data)`.
Non-object cases follow JavaScript semantics of the same statements:
an array accepts the named-property write but `JSON.stringify` drops it, so
the input array is returned unchanged; reading `null["@context"]` throws;
creating a property on a primitive throws in strict (module) code. -/
def ensureContextValue : Json → Except String Json
  | Json.obj fields => Except.ok (Json.obj (ensureContextData fields))
  | Json.arr xs => Except.ok (Json.arr xs)
  | Json.null => Except.error "TypeError: cannot read properties of null"
  | _ => Except.error "TypeError: cannot create property on a primitive"

/-- Input to `ensureContextInVcData`: either a string (represented by its
`JSON.parse` result, or by `strInvalid` with the parser message when parsing
throws) or a live mapping (`Record<string, unknown>`). -/
inductive VcDataInput where
  | strInput (parsed : Json)
  | strInvalid (msg : String)
  | objInput (fields : List (String × Json))

/-- `ensureContextInVcData` from credential-helpers.ts. A mapping input is
spread-copied (`{ ...vcData }`) and handled like a parsed object. -/
def ensureContextInVcData : VcDataInput → Except String Json
  | VcDataInput.strInvalid msg => Except.error ("Invalid JSON in vcData: " ++ msg)
  | VcDataInput.strInput parsed => ensureContextValue parsed
  | VcDataInput.objInput fields => ensureContextValue (Json.obj fields)

/-! ## The waitForTx polling loop (useRevokeCredential.ts / useCreateVault.ts)

`for (let i = 0; i < 40; i++) { try { ... } catch {} ; await sleep(1200) }`.
One poll attempt calls `server.getTransaction(hash)`; the call either throws
or resolves to a value whose optional `status` field is read. -/

/-- What one `getTransaction` query observes: the transaction record with an
optional `status` string, or a thrown (transient) query error. -/
inductive PollOutcome where
  | result (status : Option String)
  | threw
deriving DecidableEq, Repr

/-- The `try` block of one loop iteration of `waitForTx`.
`Except.ok true` models `return` (status `SUCCESS`), `Except.ok false`
falling through to the sleep, `Except.error` a throw inside the block —
either from `getTransaction` itself or from `throw new Error("FAILED")`. -/
def pollTryBlock : PollOutcome → Except String Bool
  | PollOutcome.threw => Except.error "getTransaction threw"
  | PollOutcome.result status =>
      if status == some "SUCCESS" then Except.ok true
      else if status == some "FAILED" then Except.error "FAILED"
      else Except.ok false

/-- The loop of `waitForTx`, iteration counter `i`, remaining iterations
`fuel`. The value `(q, early)` records how many `getTransaction` queries were
issued in total and whether the loop returned early on `SUCCESS`; a result
`Except.error` would model an exception escaping `waitForTx`. The
`catch {}` arm swallows every error thrown by the try block and continues. -/
def waitForTxAux (poll : Nat → PollOutcome) : Nat → Nat → Except String (Nat × Bool)
  | i, 0 => Except.ok (i, false)
  | i, fuel + 1 =>
      match pollTryBlock (poll i) with
      | Except.ok true => Except.ok (i + 1, true)
      | Except.ok false => waitForTxAux poll (i + 1) fuel
      | Except.error _ => waitForTxAux poll (i + 1) fuel

/-- The loop bound `40` of `waitForTx`. -/
def pollAttemptCeiling : Nat := 40

/-- `waitForTx` from the direct-ledger hooks, as a function of the sequence
of poll observations (`poll i` is what attempt `i` sees). -/
def waitForTx (poll : Nat → PollOutcome) : Except String (Nat × Bool) :=
  waitForTxAux poll 0 pollAttemptCeiling

/-! ## ActaClient (client.ts) -/

/-- The environment variables read by the `ActaClient` constructor. -/
structure EnvVars where
  ACTA_API_KEY_MAINNET : Option String
  ACTA_API_KEY_TESTNET : Option String
  ACTA_API_KEY : Option String
deriving DecidableEq, Repr

/-- `baseURL.includes("mainnet") ? "mainnet" : "testnet"` — the network
inference in the `ActaClient` constructor. -/
def inferredNetwork (burl : String) : String :=
  if jsIncludesSubstr burl "mainnet" then "mainnet" else "testnet"

/-- The network-specific environment credential chosen for a network. -/
def networkSpecificKey (network : String) (env : EnvVars) : Option String :=
  if network == "mainnet" then env.ACTA_API_KEY_MAINNET else env.ACTA_API_KEY_TESTNET

/-- The state an `ActaClient` holds after successful construction: the
inferred network and the `X-ACTA-Key` header value installed by the
request interceptor. -/
structure ActaClientState where
  network : String
  apiKeyHeader : String
deriving DecidableEq, Repr

/-- The `ActaClient` constructor. `apiKey = none` models calling it without
the optional parameter. The constructor performs no network request: it only
resolves the credential (`apiKey || networkSpecificKey || env.ACTA_API_KEY`),
throws when the result is absent or blank after trimming, and otherwise
installs the trimmed key as header. -/
def mkActaClient (burl : String) (apiKey : Option String) (env : EnvVars) :
    Except String ActaClientState :=
  let network := inferredNetwork burl
  let finalApiKey := jsOrOpt apiKey (jsOrOpt (networkSpecificKey network env) env.ACTA_API_KEY)
  if !jsTruthyStr finalApiKey || jsTrim (finalApiKey.getD "") == "" then
    Except.error ("API key is required for " ++ network)
  else
    Except.ok { network := network, apiKeyHeader := jsTrim (finalApiKey.getD "") }

/-- The `/config` response: `rpcUrl`, `networkPassphrase`, `actaContractId`. -/
structure ConfigResponse where
  rpcUrl : String
  networkPassphrase : String
  actaContractId : String
deriving DecidableEq, Repr

/-- The object literal returned by `ActaClient.getDefaults()` for a fetched
configuration. -/
structure DefaultsResult where
  rpcUrl : String
  networkPassphrase : String
  actaContractId : String
  issuanceContractId : String
  vaultContractId : String
deriving DecidableEq, Repr

/-- `ActaClient.getDefaults()` applied to the configuration returned by
`getConfig()`: the legacy fields are mapped to `actaContractId`. -/
def getDefaults (config : ConfigResponse) : DefaultsResult :=
  { rpcUrl := config.rpcUrl
    networkPassphrase := config.networkPassphrase
    actaContractId := config.actaContractId
    issuanceContractId := config.actaContractId
    vaultContractId := config.actaContractId }

/-! ## The issue facade (useCredential.ts) -/

/-- A response of a prepare/submit endpoint: either `{ xdr, network }`
(prepare shape) or `{ tx_id }` (submit shape). -/
inductive TxResponse where
  | prep (xdr : String) (network : String)
  | subm (txId : String)
deriving DecidableEq, Repr

/-- `isTxPrepareResponse` from api-responses.ts:
`"xdr" in response && "network" in response`. -/
def isTxPrepareResponse : TxResponse → Bool
  | TxResponse.prep _ _ => true
  | TxResponse.subm _ => false

/-- `isTxSubmitResponse` from api-responses.ts: `"tx_id" in response`. -/
def isTxSubmitResponse : TxResponse → Bool
  | TxResponse.subm _ => true
  | TxResponse.prep _ _ => false

/-- Arguments of `useCredential().issue`. -/
structure IssueArgs where
  owner : String
  vcId : String
  vcData : VcDataInput
  issuer : String
  holder : String
  issuerDid : Option String
  contractId : Option String

/-- One invocation of the caller-supplied signer
`signTransaction(unsignedXdr, { networkPassphrase })`. -/
structure SignerCall where
  unsignedXdr : String
  networkPassphrase : String
deriving DecidableEq, Repr

/-- The prepare-mode request body the issue facade sends to `vcIssue`. -/
structure VcIssuePrepareRequest where
  owner : String
  vcId : String
  vcData : Json
  issuer : String
  holder : String
  issuerDid : Option String
  sourcePublicKey : String
  contractId : String

/-- Observable effects and result of one run of `useCredential().issue`:
the thrown error or returned transaction id, the prepare request issued (if
the run got that far), and every signer invocation the run performed. -/
structure IssueRun where
  result : Except String String
  prepareRequest : Option VcIssuePrepareRequest
  signerCalls : List SignerCall

/-- `useCredential().issue`, shallowly embedded. The collaborators are passed
as oracles: `cfg` is the `getConfig()` response, `network` the value of
`client.getNetwork()` (the client's statically configured network),
`prepareResponse` the response of the first `vcIssue` call, `sign` the
external signer, and `submitResponse` the response of the second `vcIssue`
call (made with the signed envelope). -/
def issueCredential (cfg : ConfigResponse) (network : String)
    (prepareResponse : TxResponse) (sign : SignerCall → String)
    (submitResponse : TxResponse) (args : IssueArgs) : IssueRun :=
  let contractId := jsOrStr args.contractId cfg.actaContractId
  if contractId == "" then
    { result := Except.error "Contract ID not configured"
      prepareRequest := none, signerCalls := [] }
  else
    let holderDid := normalizeDid args.holder network "stellar"
    let issuerDidNorm := args.issuerDid.map (fun d => normalizeDid d network "stellar")
    match ensureContextInVcData args.vcData with
    | Except.error e =>
        { result := Except.error e, prepareRequest := none, signerCalls := [] }
    | Except.ok vcDataWithContext =>
        let req : VcIssuePrepareRequest :=
          { owner := args.owner, vcId := args.vcId, vcData := vcDataWithContext
            issuer := args.issuer, holder := holderDid, issuerDid := issuerDidNorm
            sourcePublicKey := args.issuer, contractId := contractId }
        match prepareResponse with
        | TxResponse.subm _ =>
            { result := Except.error "Failed to prepare issue credential transaction"
              prepareRequest := some req, signerCalls := [] }
        | TxResponse.prep xdr net =>
            let call : SignerCall :=
              { unsignedXdr := xdr, networkPassphrase := net }
            let _signedXdr := sign call
            match submitResponse with
            | TxResponse.prep _ _ =>
                { result := Except.error "Failed to submit issue credential transaction"
                  prepareRequest := some req, signerCalls := [call] }
            | TxResponse.subm txId =>
                { result := Except.ok txId, prepareRequest := some req
                  signerCalls := [call] }

/-! ## Spec-side predicates used in claim statements -/

/-- A credential source that is missing or blank (empty after trimming) —
the condition under which the specification says construction must fail. -/
def blankKey : Option String → Bool
  | none => true
  | some s => jsTrim s == ""

/-- The output property claimed for normalized documents: the value is an
object whose `@context` entry is an array containing both required URIs. -/
def hasRequiredContextArray : Json → Bool
  | Json.obj fields =>
      match lookupField fields "@context" with
      | some (Json.arr es) => jsArrayIncludesStr es reqUri1 && jsArrayIncludesStr es reqUri2
      | _ => false
  | _ => false

/-- The missing required URIs relative to an existing `@context` array. -/
def missingOf (existing : List Json) : List String :=
  requiredContext.filter (fun url => !jsArrayIncludesStr existing url)

/-- Sample normalized document used to witness idempotence. -/
def sampleNormalizedDoc : Json :=
  Json.obj [("@context", Json.arr [Json.str reqUri1, Json.str reqUri2])]

/-- Sample caller-supplied fields with an extra context URI. -/
def sampleExtraCtxFields : List (String × Json) :=
  [("name", Json.str "n"), ("@context", Json.arr [Json.str "https://example.org/extra"])]

/-- Normalized output for `sampleExtraCtxFields`. -/
def sampleExtraCtxOut : Json :=
  Json.obj [("name", Json.str "n"),
    ("@context", Json.arr [Json.str "https://example.org/extra",
      Json.str reqUri1, Json.str reqUri2])]

/-- A concrete issue-facade run used to witness the signer-network claim:
the backend prepare response carries a network identifier different from the
client's configured one. -/
def sampleIssueRun : IssueRun :=
  issueCredential { rpcUrl := "r", networkPassphrase := "p", actaContractId := "CID" }
    "mainnet" (TxResponse.prep "XDR0" "backend-network") (fun _ => "SIGNED")
    (TxResponse.subm "tx1")
    { owner := "own", vcId := "vc1", vcData := VcDataInput.objInput []
      issuer := "iss", holder := "hold", issuerDid := none, contractId := none }

/-! ## Helper lemmas -/

theorem listLeadsWith_append (p : List Char) :
    ∀ (x r : List Char), listLeadsWith p x = true → listLeadsWith p (x ++ r) = true := by
  induction p with
  | nil => intro x r _; simp [listLeadsWith]
  | cons a as ih =>
      intro x r hx
      cases x with
      | nil => simp [listLeadsWith] at hx
      | cons b bs =>
          simp only [listLeadsWith, Bool.and_eq_true] at hx
          simpa [listLeadsWith, hx.1] using ih bs r hx.2

theorem buildDid_starts_with_did (walletAddress network blockchain : String) :
    jsStartsWith (buildDidFromAddress walletAddress network blockchain) "did:" = true := by
  unfold buildDidFromAddress jsStartsWith
  simp only [String.data_append, List.append_assoc]
  exact listLeadsWith_append _ _ _ rfl

/-! ## Claim C7 -/

/-- Claim C7: `normalizeDid(x, n)` is the identity on its first argument
whenever `x` already starts with the `did:` prefix, for every network `n`
(and every blockchain argument). -/
theorem normalizeDid_identity_on_did (x network blockchain : String)
    (h : jsStartsWith x "did:" = true) :
    normalizeDid x network blockchain = x := by
  unfold normalizeDid
  simp [h]

/-- Witness for C7 at a concrete already-qualified identifier. -/
theorem normalizeDid_identity_on_did_witness :
    jsStartsWith "did:pkh:stellar:testnet:GABC" "did:" = true ∧
      normalizeDid "did:pkh:stellar:testnet:GABC" "mainnet" "stellar"
        = "did:pkh:stellar:testnet:GABC" :=
  ⟨rfl, normalizeDid_identity_on_did "did:pkh:stellar:testnet:GABC" "mainnet" "stellar" rfl⟩

/-! ## Claim C8 -/

/-- Counterexample to C8: on the empty string `normalizeDid` does not fail
with `InvalidInput` — there is no emptiness check in the source — it returns
the well-formed identifier with an empty address part. -/
theorem normalizeDid_empty_returns_value :
    normalizeDid "" "testnet" "stellar" = "did:pkh:stellar:testnet:" := rfl

/-- Claim C8 (amended): `normalizeDid` never fails on any input: for every
input string — the empty string included — and every network and blockchain
it returns a `did:`-prefixed identifier without error. -/
theorem normalizeDid_total_returns_did (x network blockchain : String) :
    jsStartsWith (normalizeDid x network blockchain) "did:" = true := by
  unfold normalizeDid
  by_cases h : jsStartsWith x "did:" = true
  · simp [h]
  · simp only [Bool.not_eq_true] at h
    simp [h, buildDid_starts_with_did]

/-! ## Claim C10 -/

/-- Claim C10: for every configuration the client fetches, `getDefaults`
returns an object whose legacy fields `issuanceContractId` and
`vaultContractId` both equal the configuration's `actaContractId`. -/
theorem getDefaults_legacy_fields_alias (cfg : ConfigResponse) :
    (getDefaults cfg).issuanceContractId = cfg.actaContractId ∧
      (getDefaults cfg).vaultContractId = cfg.actaContractId :=
  ⟨rfl, rfl⟩

/-! ## Claim C1 -/

/-- Claim C1 concerns the handling of a `FAILED` poll status. In the source,
`throw new Error("FAILED")` sits inside the same `try` block whose empty
`catch {}` swallows every exception, so a `FAILED` status does not terminate
polling and no error reaches the caller: with every attempt observing
`FAILED`, all 40 queries are still issued and the loop returns normally; and
with `FAILED` on attempt 0 followed by `SUCCESS`, a second query is issued
and the loop returns as a success. -/
theorem waitForTx_failed_not_terminal :
    waitForTx (fun _ => PollOutcome.result (some "FAILED")) = Except.ok (40, false) ∧
      waitForTx (fun i => if i == 0 then PollOutcome.result (some "FAILED")
          else PollOutcome.result (some "SUCCESS")) = Except.ok (2, true) :=
  ⟨rfl, rfl⟩

/-! ## Claim C5 -/

theorem waitForTxAux_no_early_return (poll : Nat → PollOutcome) :
    ∀ (fuel i : Nat),
      (∀ j, i ≤ j → j < i + fuel → pollTryBlock (poll j) ≠ Except.ok true) →
      waitForTxAux poll i fuel = Except.ok (i + fuel, false) := by
  intro fuel
  induction fuel with
  | zero => intro i _; simp [waitForTxAux]
  | succ n ih =>
      intro i h
      have hi : pollTryBlock (poll i) ≠ Except.ok true := h i (Nat.le_refl i) (by omega)
      have hrest : waitForTxAux poll (i + 1) n = Except.ok (i + 1 + n, false) :=
        ih (i + 1) (fun j hj1 hj2 => h j (by omega) (by omega))
      have harith : i + 1 + n = i + (n + 1) := by omega
      unfold waitForTxAux
      rcases hp : pollTryBlock (poll i) with e | b
      · rw [hrest, harith]
      · cases b
        · rw [hrest, harith]
        · exact absurd hp hi

/-- Claim C5: if every one of the 40 poll attempts observes a non-terminal
status (neither `SUCCESS` nor `FAILED`), the loop performs exactly 40
queries, does not return early, and ends without raising any exception
(result `Except.ok`), leaving the outcome unresolved for the caller. -/
theorem polling_exhaustion_returns_without_exception (poll : Nat → PollOutcome)
    (h : ∀ i, i < pollAttemptCeiling → ∃ s, poll i = PollOutcome.result s ∧
        s ≠ some "SUCCESS" ∧ s ≠ some "FAILED") :
    waitForTx poll = Except.ok (pollAttemptCeiling, false) := by
  unfold waitForTx
  have h0 : ∀ j, 0 ≤ j → j < 0 + pollAttemptCeiling →
      pollTryBlock (poll j) ≠ Except.ok true := by
    intro j _ hj
    obtain ⟨s, hs, h1, h2⟩ := h j (by omega)
    rw [hs]
    unfold pollTryBlock
    simp [h1, h2]
  have := waitForTxAux_no_early_return poll pollAttemptCeiling 0 h0
  simpa using this

/-- Witness for C5: forty consecutive `PENDING` observations. -/
theorem polling_exhaustion_witness :
    waitForTx (fun _ => PollOutcome.result (some "PENDING"))
      = Except.ok (pollAttemptCeiling, false) :=
  polling_exhaustion_returns_without_exception _
    (fun _ _ => ⟨some "PENDING", rfl, by decide, by decide⟩)

/-! ## Claim C6 -/

theorem jsOrOpt_blank (a b : Option String) (ha : blankKey a = true)
    (hb : blankKey b = true) : blankKey (jsOrOpt a b) = true := by
  unfold jsOrOpt
  rcases a with _ | s
  · simpa [jsTruthyStr] using hb
  · by_cases hs : s == ""
    · simp [jsTruthyStr, hs, hb]
    · simpa [jsTruthyStr, hs] using ha

theorem blank_key_fails_check (k : Option String) (h : blankKey k = true) :
    (!jsTruthyStr k || jsTrim (k.getD "") == "") = true := by
  rcases k with _ | s
  · simp [jsTruthyStr]
  · by_cases hs : s == ""
    · simp [jsTruthyStr, hs]
    · simp only [blankKey] at h
      simp [jsTruthyStr, hs, h]

/-- Claim C6: constructing a client with no resolvable credential — no
explicit `apiKey`, no network-specific environment value for the network
derived from the base URL, and no `ACTA_API_KEY` fallback resolving to a
non-blank value — fails with the missing-credential error (the constructor
performs no network request; resolution tries the three sources in the
priority order `apiKey || networkSpecificKey || env.ACTA_API_KEY`). -/
theorem mkActaClient_missing_credential (burl : String) (apiKey : Option String)
    (env : EnvVars)
    (h1 : blankKey apiKey = true)
    (h2 : blankKey (networkSpecificKey (inferredNetwork burl) env) = true)
    (h3 : blankKey env.ACTA_API_KEY = true) :
    mkActaClient burl apiKey env
      = Except.error ("API key is required for " ++ inferredNetwork burl) := by
  have hb : blankKey (jsOrOpt apiKey
      (jsOrOpt (networkSpecificKey (inferredNetwork burl) env) env.ACTA_API_KEY)) = true :=
    jsOrOpt_blank _ _ h1 (jsOrOpt_blank _ _ h2 h3)
  unfold mkActaClient
  simp only [blank_key_fails_check _ hb, if_true]

/-- Witness for C6: an environment with none of the three sources set. -/
theorem mkActaClient_missing_credential_witness :
    blankKey none = true ∧
      mkActaClient "https://acta.build/api/testnet" none
          { ACTA_API_KEY_MAINNET := none, ACTA_API_KEY_TESTNET := none, ACTA_API_KEY := none }
        = Except.error ("API key is required for "
            ++ inferredNetwork "https://acta.build/api/testnet") :=
  ⟨rfl, mkActaClient_missing_credential "https://acta.build/api/testnet" none
      { ACTA_API_KEY_MAINNET := none, ACTA_API_KEY_TESTNET := none, ACTA_API_KEY := none }
      rfl rfl rfl⟩

/-! ## Claim C2 -/

theorem issueCredential_signerCalls_network_irrelevant (cfg : ConfigResponse)
    (prepareResponse : TxResponse) (sign : SignerCall → String)
    (submitResponse : TxResponse) (args : IssueArgs) (n1 n2 : String) :
    (issueCredential cfg n1 prepareResponse sign submitResponse args).signerCalls
      = (issueCredential cfg n2 prepareResponse sign submitResponse args).signerCalls := by
  unfold issueCredential
  by_cases hc : (jsOrStr args.contractId cfg.actaContractId == "") = true
  · simp [hc]
  · simp only [Bool.not_eq_true] at hc
    rcases he : ensureContextInVcData args.vcData with e | v
    · simp [hc, he]
    · rcases prepareResponse with ⟨x, n⟩ | t
      · rcases submitResponse with ⟨x2, n2'⟩ | t2 <;> simp [hc, he]
      · simp [hc, he]

/-- Claim C2: whenever the issue orchestration's prepare step returns a
prepare-shaped response carrying both an envelope and a network identifier,
every invocation of the external signer uses exactly that envelope and that
network identifier; the signer invocations do not depend on the client's
statically configured network at all. -/
theorem issue_signs_with_prepared_network (cfg : ConfigResponse) (network : String)
    (prepareResponse : TxResponse) (sign : SignerCall → String)
    (submitResponse : TxResponse) (args : IssueArgs) (c : SignerCall)
    (hc : c ∈ (issueCredential cfg network prepareResponse sign submitResponse args).signerCalls) :
    prepareResponse = TxResponse.prep c.unsignedXdr c.networkPassphrase ∧
      ∀ network2,
        (issueCredential cfg network2 prepareResponse sign submitResponse args).signerCalls
          = (issueCredential cfg network prepareResponse sign submitResponse args).signerCalls := by
  refine ⟨?_, fun network2 =>
    issueCredential_signerCalls_network_irrelevant cfg prepareResponse sign
      submitResponse args network2 network⟩
  simp only [issueCredential] at hc
  by_cases hcid : (jsOrStr args.contractId cfg.actaContractId == "") = true
  · simp [hcid] at hc
  · simp only [Bool.not_eq_true] at hcid
    rcases he : ensureContextInVcData args.vcData with e | v
    · simp [hcid, he] at hc
    · cases prepareResponse with
      | subm t => simp [hcid, he] at hc
      | prep x n =>
          cases submitResponse with
          | prep x2 n2 =>
              simp only [hcid, he, Bool.false_eq_true, if_false,
                List.mem_singleton] at hc
              subst hc
              rfl
          | subm t2 =>
              simp only [hcid, he, Bool.false_eq_true, if_false,
                List.mem_singleton] at hc
              subst hc
              rfl

/-- Witness for C2: a run whose prepare response carries a network
identifier different from the client's configured `"mainnet"`. -/
theorem issue_signs_with_prepared_network_witness :
    ({ unsignedXdr := "XDR0", networkPassphrase := "backend-network" } : SignerCall)
        ∈ sampleIssueRun.signerCalls ∧
      TxResponse.prep "XDR0" "backend-network"
        = TxResponse.prep
            ({ unsignedXdr := "XDR0", networkPassphrase := "backend-network" } : SignerCall).unsignedXdr
            ({ unsignedXdr := "XDR0", networkPassphrase := "backend-network" } : SignerCall).networkPassphrase :=
  ⟨List.mem_singleton_self _,
    (issue_signs_with_prepared_network
      { rpcUrl := "r", networkPassphrase := "p", actaContractId := "CID" } "mainnet"
      (TxResponse.prep "XDR0" "backend-network") (fun _ => "SIGNED")
      (TxResponse.subm "tx1")
      { owner := "own", vcId := "vc1", vcData := VcDataInput.objInput []
        issuer := "iss", holder := "hold", issuerDid := none, contractId := none }
      { unsignedXdr := "XDR0", networkPassphrase := "backend-network" }
      (List.mem_singleton_self _)).1⟩

/-! ## Association-list lemmas for the JSON object model -/

theorem lookup_setField_self (kvs : List (String × Json)) (key : String) (v : Json) :
    lookupField (setField kvs key v) key = some v := by
  induction kvs with
  | nil => simp [setField, lookupField]
  | cons head rest ih =>
      obtain ⟨a, b⟩ := head
      by_cases hab : (a == key) = true
      · simp [setField, lookupField, hab]
      · simp only [Bool.not_eq_true] at hab
        simp [setField, lookupField, hab, ih]

theorem lookup_setField_ne (kvs : List (String × Json)) (key : String) (v : Json)
    (k : String) (h : ¬ k = key) :
    lookupField (setField kvs key v) k = lookupField kvs k := by
  induction kvs with
  | nil =>
      have : (key == k) = false := by
        simp only [beq_eq_false_iff_ne, ne_eq]
        exact fun hk => h hk.symm
      simp [setField, lookupField, this]
  | cons head rest ih =>
      obtain ⟨a, b⟩ := head
      by_cases hab : (a == key) = true
      · have hak : (a == k) = false := by
          simp only [beq_iff_eq] at hab
          simp only [beq_eq_false_iff_ne, ne_eq, hab]
          exact fun hk => h hk.symm
        simp [setField, lookupField, hab, hak]
      · simp only [Bool.not_eq_true] at hab
        by_cases hak : (a == k) = true
        · simp [setField, lookupField, hab, hak]
        · simp only [Bool.not_eq_true] at hak
          simp [setField, lookupField, hab, hak, ih]

theorem setField_noop (kvs : List (String × Json)) (key : String) (v : Json)
    (h : lookupField kvs key = some v) : setField kvs key v = kvs := by
  induction kvs with
  | nil => simp [lookupField] at h
  | cons head rest ih =>
      obtain ⟨a, b⟩ := head
      by_cases hab : (a == key) = true
      · simp only [lookupField, hab, if_true, Option.some.injEq] at h
        simp [setField, hab, h]
      · simp only [Bool.not_eq_true] at hab
        simp only [lookupField, hab, Bool.false_eq_true, if_false] at h
        simp [setField, hab, ih h]

theorem jsArrayIncludesStr_iff (xs : List Json) (u : String) :
    jsArrayIncludesStr xs u = true ↔ Json.str u ∈ xs := by
  induction xs with
  | nil => simp [jsArrayIncludesStr]
  | cons x rest ih =>
      simp only [jsArrayIncludesStr, List.any_cons, Bool.or_eq_true] at ih ⊢
      cases x with
      | str t =>
          simp only [beq_iff_eq, List.mem_cons, ih, Json.str.injEq]
          constructor
          · rintro (rfl | hm)
            · exact Or.inl rfl
            · exact Or.inr hm
          · rintro (he | hm)
            · exact Or.inl (Json.str.injEq _ _ ▸ he.symm ▸ rfl)
            · exact Or.inr hm
      | null => simp [List.mem_cons, ih]
      | bool b => simp [List.mem_cons, ih]
      | num n => simp [List.mem_cons, ih]
      | arr es => simp [List.mem_cons, ih]
      | obj fs => simp [List.mem_cons, ih]

/-- Case analysis of `ensureContextData`: either the `@context` property is
not an array and is replaced wholesale by the required URI list, or it is an
array and the result appends the missing required URIs (nothing when none
are missing, in which case the write is a no-op). -/
theorem ensureContextData_eq (fields : List (String × Json)) :
    ((∀ existing, ¬ lookupField fields "@context" = some (Json.arr existing)) ∧
      ensureContextData fields
        = setField fields "@context" (Json.arr (List.map Json.str requiredContext))) ∨
    (∃ existing, lookupField fields "@context" = some (Json.arr existing) ∧
      ensureContextData fields
        = setField fields "@context"
            (Json.arr (existing ++ List.map Json.str (missingOf existing)))) := by
  rcases hctx : lookupField fields "@context" with _ | v
  · left
    refine ⟨by simp [hctx], ?_⟩
    simp [ensureContextData, hctx, jsTruthy, isJsonArray]
  · cases v with
    | arr xs =>
        right
        refine ⟨xs, rfl, ?_⟩
        simp only [ensureContextData, hctx, jsTruthy, isJsonArray, arrayElems,
          Bool.not_true, Bool.false_or, missingOf]
        by_cases hm :
            0 < (requiredContext.filter (fun url => !jsArrayIncludesStr xs url)).length
        · simp [hm]
        · rw [if_neg hm]
          have hnil : requiredContext.filter (fun url => !jsArrayIncludesStr xs url) = [] := by
            rcases hmm : requiredContext.filter (fun url => !jsArrayIncludesStr xs url) with
              _ | ⟨a, l⟩
            · rfl
            · rw [hmm] at hm
              simp at hm
          rw [hnil]
          simp only [List.map_nil, List.append_nil]
          exact (setField_noop fields "@context" (Json.arr xs) hctx).symm
    | null =>
        left
        exact ⟨by simp [hctx], by simp [ensureContextData, hctx, jsTruthy, isJsonArray]⟩
    | bool b =>
        left
        refine ⟨by simp [hctx], ?_⟩
        cases b <;> simp [ensureContextData, hctx, jsTruthy, isJsonArray]
    | num n =>
        left
        refine ⟨by simp [hctx], ?_⟩
        by_cases hn : (n == 0) = true <;>
          simp [ensureContextData, hctx, jsTruthy, isJsonArray, hn]
    | str s =>
        left
        refine ⟨by simp [hctx], ?_⟩
        by_cases hs : (s == "") = true <;>
          simp [ensureContextData, hctx, jsTruthy, isJsonArray, hs]
    | obj fs =>
        left
        exact ⟨by simp [hctx], by simp [ensureContextData, hctx, jsTruthy, isJsonArray]⟩

theorem mem_existing_append_missing (xs : List Json) (u : String)
    (hu : u ∈ requiredContext) :
    Json.str u ∈ xs ++ List.map Json.str (missingOf xs) := by
  by_cases h : jsArrayIncludesStr xs u = true
  · exact List.mem_append_left _ ((jsArrayIncludesStr_iff xs u).mp h)
  · simp only [Bool.not_eq_true] at h
    refine List.mem_append_right _ ?_
    refine List.mem_map_of_mem _ ?_
    simp only [missingOf]
    exact List.mem_filter.mpr ⟨hu, by simp [h]⟩

/-- The `@context` entry of a normalized object is an array containing both
required URIs, and an existing array-valued `@context` is a prefix of it. -/
theorem ensureContextData_context_spec (fields : List (String × Json)) :
    ∃ es, lookupField (ensureContextData fields) "@context" = some (Json.arr es) ∧
      Json.str reqUri1 ∈ es ∧ Json.str reqUri2 ∈ es ∧
      (∀ existing, lookupField fields "@context" = some (Json.arr existing)
        → existing <+: es) := by
  rcases ensureContextData_eq fields with ⟨hno, heq⟩ | ⟨xs, hctx, heq⟩
  · refine ⟨List.map Json.str requiredContext, ?_, ?_, ?_, ?_⟩
    · rw [heq]; exact lookup_setField_self _ _ _
    · simp [requiredContext]
    · simp [requiredContext]
    · intro existing hex
      exact absurd hex (hno existing)
  · refine ⟨xs ++ List.map Json.str (missingOf xs), ?_, ?_, ?_, ?_⟩
    · rw [heq]; exact lookup_setField_self _ _ _
    · exact mem_existing_append_missing xs reqUri1 (by simp [requiredContext])
    · exact mem_existing_append_missing xs reqUri2 (by simp [requiredContext])
    · intro existing hex
      rw [hctx, Option.some.injEq, Json.arr.injEq] at hex
      subst hex
      exact ⟨List.map Json.str (missingOf xs), rfl⟩

/-- A normalized object whose `@context` already is an array containing both
required URIs is left unchanged by `ensureContextData`. -/
theorem ensureContextData_noop (kvs : List (String × Json)) (es : List Json)
    (hl : lookupField kvs "@context" = some (Json.arr es))
    (h1 : Json.str reqUri1 ∈ es) (h2 : Json.str reqUri2 ∈ es) :
    ensureContextData kvs = kvs := by
  have hmiss : missingOf es = [] := by
    simp [missingOf, requiredContext, List.filter,
      (jsArrayIncludesStr_iff es reqUri1).mpr h1,
      (jsArrayIncludesStr_iff es reqUri2).mpr h2]
  rcases ensureContextData_eq kvs with ⟨hno, _⟩ | ⟨xs, hctx, heq⟩
  · exact absurd hl (hno es)
  · rw [hctx, Option.some.injEq, Json.arr.injEq] at hl
    subst hl
    rw [heq, hmiss]
    simp only [List.map_nil, List.append_nil]
    exact setField_noop _ _ _ hctx

/-! ## Claim C3 -/

theorem ensureContextValue_stable (v j : Json)
    (h : ensureContextValue v = Except.ok j) :
    ensureContextValue j = Except.ok j := by
  cases v with
  | null => simp [ensureContextValue] at h
  | bool b => simp [ensureContextValue] at h
  | num n => simp [ensureContextValue] at h
  | str s => simp [ensureContextValue] at h
  | arr xs =>
      simp only [ensureContextValue, Except.ok.injEq] at h
      subst h
      rfl
  | obj fields =>
      simp only [ensureContextValue, Except.ok.injEq] at h
      subst h
      simp only [ensureContextValue, Except.ok.injEq, Json.obj.injEq]
      obtain ⟨es, hlook, h1, h2, _⟩ := ensureContextData_context_spec fields
      exact ensureContextData_noop _ es hlook h1 h2

/-- Claim C3: `ensureContextInVcData` is idempotent — for every input
document (string or mapping) on which it succeeds, re-applying it to its own
serialized output returns that same output. -/
theorem ensureContext_idempotent (d : VcDataInput) (j : Json)
    (h : ensureContextInVcData d = Except.ok j) :
    ensureContextInVcData (VcDataInput.strInput j) = Except.ok j := by
  cases d with
  | strInvalid m => simp [ensureContextInVcData] at h
  | strInput p => exact ensureContextValue_stable p j h
  | objInput f => exact ensureContextValue_stable (Json.obj f) j h

/-- Witness for C3: normalizing the empty mapping twice. -/
theorem ensureContext_idempotent_witness :
    ensureContextInVcData (VcDataInput.objInput []) = Except.ok sampleNormalizedDoc ∧
      ensureContextInVcData (VcDataInput.strInput sampleNormalizedDoc)
        = Except.ok sampleNormalizedDoc :=
  ⟨rfl, ensureContext_idempotent (VcDataInput.objInput []) sampleNormalizedDoc rfl⟩

/-! ## Claim C4 -/

/-- Counterexample to C4 as stated: a string input that parses to a JSON
array is accepted by `ensureContextInVcData` (the named-property write on the
array succeeds and `JSON.stringify` drops it), yet the output has no
`@context` entry at all, let alone an array superset of the required URIs. -/
theorem ensureContext_accepts_array_without_context :
    ensureContextInVcData (VcDataInput.strInput (Json.arr [Json.num 1]))
        = Except.ok (Json.arr [Json.num 1]) ∧
      hasRequiredContextArray (Json.arr [Json.num 1]) = false :=
  ⟨rfl, rfl⟩

/-- Claim C4 (amended): for every document accepted by `ensureContextInVcData`
that is a mapping (or a string parsing to a mapping), the `@context` entry of
the normalized output is an array containing both required schema URIs, and
when the caller supplied an array-valued `@context` its entries form a prefix
of the output entries — every additional URI is preserved in its original
relative order. (A string input parsing to a non-mapping JSON array is
passed through without a `@context` entry.) -/
theorem ensureContext_superset_preserves_order (d : VcDataInput)
    (fields : List (String × Json)) (j : Json)
    (hd : d = VcDataInput.objInput fields ∨ d = VcDataInput.strInput (Json.obj fields))
    (h : ensureContextInVcData d = Except.ok j) :
    ∃ outFields es, j = Json.obj outFields ∧
      lookupField outFields "@context" = some (Json.arr es) ∧
      Json.str reqUri1 ∈ es ∧ Json.str reqUri2 ∈ es ∧
      (∀ existing, lookupField fields "@context" = some (Json.arr existing)
        → existing <+: es) := by
  have hv : ensureContextValue (Json.obj fields) = Except.ok j := by
    rcases hd with rfl | rfl <;> exact h
  simp only [ensureContextValue, Except.ok.injEq] at hv
  subst hv
  obtain ⟨es, hlook, h1, h2, hpre⟩ := ensureContextData_context_spec fields
  exact ⟨ensureContextData fields, es, rfl, hlook, h1, h2, hpre⟩

/-- Witness for C4 (amended): a mapping with one extra context URI; the extra
URI stays first and the required URIs are appended after it. -/
theorem ensureContext_superset_witness :
    ensureContextInVcData (VcDataInput.objInput sampleExtraCtxFields)
        = Except.ok sampleExtraCtxOut ∧
      (∃ outFields es, sampleExtraCtxOut = Json.obj outFields ∧
        lookupField outFields "@context" = some (Json.arr es) ∧
        Json.str reqUri1 ∈ es ∧ Json.str reqUri2 ∈ es ∧
        (∀ existing,
          lookupField sampleExtraCtxFields "@context" = some (Json.arr existing)
            → existing <+: es)) :=
  ⟨rfl, ensureContext_superset_preserves_order
    (VcDataInput.objInput sampleExtraCtxFields) sampleExtraCtxFields
    sampleExtraCtxOut (Or.inl rfl) rfl⟩

/-! ## Claim C9 -/

/-- Counterexample to C9 as stated: on a document whose `@context` is present
and well-formed (an array) but misses the required URIs, the function does
not keep that field at its input value — the output `@context` has the
required URIs appended — although the field was neither absent nor
malformed. -/
theorem ensureContext_changes_wellformed_context :
    ensureContextInVcData (VcDataInput.objInput [("@context", Json.arr [Json.str "a"])])
        = Except.ok (Json.obj [("@context",
            Json.arr [Json.str "a", Json.str reqUri1, Json.str reqUri2])]) ∧
      lookupField [("@context", Json.arr [Json.str "a", Json.str reqUri1, Json.str reqUri2])]
          "@context"
        ≠ some (Json.arr [Json.str "a"]) :=
  ⟨rfl, by simp [lookupField, reqUri1, reqUri2]⟩

/-- Claim C9 (amended): for every mapping-like document on which
`ensureContextInVcData` succeeds, every field other than `@context` is
present in the output with its input value (no field is removed), and
`@context` itself is either an extension of the caller's array-valued entry
(appending at the end) or the required URI list when it was absent or
malformed. -/
theorem ensureContext_frame (d : VcDataInput) (fields : List (String × Json)) (j : Json)
    (hd : d = VcDataInput.objInput fields ∨ d = VcDataInput.strInput (Json.obj fields))
    (h : ensureContextInVcData d = Except.ok j) :
    ∃ outFields, j = Json.obj outFields ∧
      (∀ k, ¬ k = "@context" → lookupField outFields k = lookupField fields k) ∧
      ((∃ existing extra, lookupField fields "@context" = some (Json.arr existing) ∧
          lookupField outFields "@context" = some (Json.arr (existing ++ extra))) ∨
        lookupField outFields "@context"
          = some (Json.arr (List.map Json.str requiredContext))) := by
  have hv : ensureContextValue (Json.obj fields) = Except.ok j := by
    rcases hd with rfl | rfl <;> exact h
  simp only [ensureContextValue, Except.ok.injEq] at hv
  subst hv
  refine ⟨ensureContextData fields, rfl, ?_, ?_⟩
  · intro k hk
    rcases ensureContextData_eq fields with ⟨_, heq⟩ | ⟨xs, _, heq⟩ <;>
      rw [heq, lookup_setField_ne _ _ _ _ hk]
  · rcases ensureContextData_eq fields with ⟨hno, heq⟩ | ⟨xs, hctx, heq⟩
    · right
      rw [heq]
      exact lookup_setField_self _ _ _
    · left
      exact ⟨xs, List.map Json.str (missingOf xs), hctx,
        by rw [heq]; exact lookup_setField_self _ _ _⟩

/-- Witness for C9 (amended): a mapping with one data field and no
`@context`. -/
theorem ensureContext_frame_witness :
    ensureContextInVcData (VcDataInput.objInput [("name", Json.str "n")])
        = Except.ok (Json.obj [("name", Json.str "n"),
            ("@context", Json.arr [Json.str reqUri1, Json.str reqUri2])]) ∧
      (∃ outFields,
        Json.obj [("name", Json.str "n"),
            ("@context", Json.arr [Json.str reqUri1, Json.str reqUri2])]
          = Json.obj outFields ∧
        (∀ k, ¬ k = "@context" →
          lookupField outFields k = lookupField [("name", Json.str "n")] k) ∧
        ((∃ existing extra,
            lookupField [("name", Json.str "n")] "@context" = some (Json.arr existing) ∧
            lookupField outFields "@context" = some (Json.arr (existing ++ extra))) ∨
          lookupField outFields "@context"
            = some (Json.arr (List.map Json.str requiredContext)))) :=
  ⟨rfl, ensureContext_frame (VcDataInput.objInput [("name", Json.str "n")])
    [("name", Json.str "n")]
    (Json.obj [("name", Json.str "n"),
      ("@context", Json.arr [Json.str reqUri1, Json.str reqUri2])])
    (Or.inl rfl) rfl⟩

end Acta
